import Mathlib

/-!
Verification development for the discord-llm-chatbot repository.

Shallow embedding of the pure cores of:
- `src/tokenizer_service.py` (`TokenizerService`, default `chars_per_token = 4.0`;
  `len(text)/4.0` followed by `int(...)` is exact floor division by 4, so it is
  modelled with natural-number division),
- `src/message_router.py` (`MessageRouter._assemble_and_budget`),
- `src/participation_policy.py` (`ParticipationPolicy.should_reply`, `name_match`),
- `src/conversation_memory.py` (`ConversationMemory`),
- `src/conversation_batcher.py` (`ConversationBatcher`),
- `src/lore_service.py` (`LoreService.build_lore_block`, `_key_matches`),
- `src/llm/multi_backend_client.py` (`ContextualMultiBackendClient._select`).

Python `datetime` values are modelled as `Int` seconds since the epoch,
`random.random()` rolls and `random_response_chance` as `ℚ`, per-channel
`dict`/`defaultdict` state as total functions `String → _` with the default
value, and `deque`s as lists whose head is the oldest element.
-/

/-- Chat message as used by `_assemble_and_budget`: a dict with `role` and
`content` keys.  Only the textual-content case is modelled (the multimodal
parts-list case raises inside the router's `try` and leaves content intact). -/
structure Msg where
  role : String
  content : String
deriving DecidableEq, Repr

/-- `TokenizerService.estimate_tokens_text` with the default
`chars_per_token = 4.0`: `0` for empty text, else `max(1, int(len(text)/4.0))`. -/
def estimateTokensText (s : String) : Nat :=
  if s.length = 0 then 0 else max 1 (s.length / 4)

/-- `TokenizerService.estimate_tokens_messages` restricted to string contents:
sum of per-message content estimates. -/
def estimateTokensMessages (ms : List Msg) : Nat :=
  ms.foldl (fun acc m => acc + estimateTokensText m.content) 0

/-- `TokenizerService.truncate_text_tokens` with the default
`chars_per_token = 4.0`.  `max_tokens <= 0` yields the empty string;
`approx_chars = int(max_tokens * 4.0) = 4 * max_tokens`; text short enough is
returned unchanged, otherwise it is cut at `max(0, approx_chars - 3)` and an
ellipsis is appended. -/
def truncateTextTokens (text : String) (maxTokens : Int) : String :=
  if maxTokens ≤ 0 then ""
  else
    let approxChars := (4 * maxTokens).toNat
    if text.length ≤ approxChars then text
    else ⟨text.data.take (approxChars - 3) ++ "...".data⟩

/-- The guard `protect_last_assistant and trimmed[0].get('role') == 'assistant'
and trimmed[0].get('content') == protect_last_assistant` from
`_assemble_and_budget` (an empty protect string is falsy in Python). -/
def protectGuard (protect : Option String) (h : Msg) : Bool :=
  match protect with
  | some p => (!(p == "")) && (h.role == "assistant") && (h.content == p)
  | none => false

/-- The history-trimming `while` loop of `_assemble_and_budget` (step 1):
while the assembled estimate exceeds the budget, drop the oldest entry, except
that a protected oldest entry is skipped (the next-oldest is dropped instead,
or the loop breaks when only the protected entry remains). -/
def trimHistory (system : List Msg) (userMsg : Msg) (budget : Nat)
    (protect : Option String) : List Msg → List Msg
  | [] => []
  | h :: t =>
    if estimateTokensMessages (system ++ (h :: t) ++ [userMsg]) ≤ budget then h :: t
    else if protectGuard protect h then
      match t with
      | [] => [h]
      | _ :: ts => trimHistory system userMsg budget protect (h :: ts)
    else trimHistory system userMsg budget protect t
termination_by l => l.length
decreasing_by
  · simp
  · simp

/-- Python `str.split()` (split on whitespace runs, dropping empty pieces). -/
def splitWords (s : String) : List String :=
  (s.split Char.isWhitespace).filter (fun w => w ≠ "")

/-- Step 2 of `_assemble_and_budget`: truncate the user message body to the
remaining allowance, with the word-count guard applied afterwards. -/
def truncatedUser (system hist : List Msg) (userMsg : Msg) (budget tmin : Nat) : Msg :=
  let baseTokens := estimateTokensMessages (system ++ hist ++ [{ userMsg with content := "" }])
  let remainingRaw : Int := max 1 ((budget : Int) - (baseTokens : Int))
  let remaining : Int := if budget < tmin then remainingRaw else max remainingRaw (tmin : Int)
  let truncated0 := truncateTextTokens userMsg.content remaining
  let toks := splitWords truncated0
  let truncated :=
    if remaining < (toks.length : Int) then String.intercalate " " (toks.take remaining.toNat)
    else truncated0
  { userMsg with content := truncated }

/-- Result triple of `_assemble_and_budget`:
`(messages, tokens_before, tokens_after)`. -/
structure BudgetResult where
  messages : List Msg
  tokensBefore : Nat
  tokensAfter : Nat
deriving DecidableEq, Repr

/-- The history kept by `_assemble_and_budget`: unchanged when already within
budget or empty (`if tokens_before > prompt_budget and history:`), otherwise
the trimming loop runs. -/
def abHist (system history : List Msg) (userMsg : Msg) (budget : Nat)
    (protect : Option String) : List Msg :=
  if estimateTokensMessages (system ++ history ++ [userMsg]) ≤ budget ∨ history.isEmpty then
    history
  else trimHistory system userMsg budget protect history

/-- The user message kept by `_assemble_and_budget`: unchanged when the
post-trim total fits, otherwise truncated (step 2). -/
def abUser (system history : List Msg) (userMsg : Msg) (budget : Nat)
    (protect : Option String) (tmin : Nat) : Msg :=
  let hist1 := abHist system history userMsg budget protect
  if estimateTokensMessages (system ++ hist1 ++ [userMsg]) ≤ budget then userMsg
  else truncatedUser system hist1 userMsg budget tmin

/-- `MessageRouter._assemble_and_budget`: assemble `system_blocks + history +
user`, trim history while over budget (step 1), then truncate the user body if
still over budget (step 2); returns `(messages, tokens_before, tokens_after)`. -/
def assembleAndBudget (system history : List Msg) (userMsg : Msg) (budget : Nat)
    (protect : Option String) (tmin : Nat) : BudgetResult :=
  let hist1 := abHist system history userMsg budget protect
  let user1 := abUser system history userMsg budget protect tmin
  let msgs := system ++ hist1 ++ [user1]
  ⟨msgs, estimateTokensMessages (system ++ history ++ [userMsg]), estimateTokensMessages msgs⟩

/-- Python `str.lower()` (ASCII coverage via `Char.toLower`). -/
def lowerStr (s : String) : String := ⟨s.data.map Char.toLower⟩

/-- Python regex `\w` (word character), ASCII coverage: letters, digits, `_`. -/
def isWordChar (c : Char) : Bool := c.isAlphanum || c == '_'

/-- The punctuation class of the strict alias pattern in
`ParticipationPolicy.__init__`: `[\)\]}} ,\.\!\?\:\;”]`. -/
def strictFollowPunct : List Char := [')', ']', '}', ' ', ',', '.', '!', '?', ':', ';', '”']

/-- The possessive/contraction suffixes `(?:s|d|m|re|ll)` of the strict
alias pattern. -/
def possessiveSuffixes : List (List Char) := [['s'], ['d'], ['m'], ['r', 'e'], ['l', 'l']]

/-- `(?:$|\s|[\)\]}} ,\.\!\?\:\;”])`: end of string, whitespace, or listed
punctuation. -/
def strictEndOrSep : List Char → Bool
  | [] => true
  | c :: _ => c.isWhitespace || strictFollowPunct.contains c

/-- The strict pattern's lookahead
`(?=(?:['’](?:s|d|m|re|ll))?(?:$|\s|[\)\]}} ,\.\!\?\:\;”]))`: the optional
possessive/contraction suffix, then end/whitespace/punctuation. -/
def strictAfterOk (rest : List Char) : Bool :=
  strictEndOrSep rest ||
    (match rest with
     | apo :: tail =>
        (apo == '\'' || apo == '’') &&
          possessiveSuffixes.any (fun suf =>
            suf.isPrefixOf tail && strictEndOrSep (tail.drop suf.length))
     | [] => false)

/-- The strict pattern's negative lookbehind `(?<![\w-])` at position `i`. -/
def strictBeforeOk (s : List Char) (i : Nat) : Bool :=
  i == 0 ||
    (match (s.drop (i - 1)).head? with
     | some c => !(isWordChar c || c == '-')
     | none => true)

/-- `re.search` of the strict alias pattern
`(?<![\w-]){esc}(?=(?:['’](?:s|d|m|re|ll))?(?:$|\s|[\)\]}} ,\.\!\?\:\;”]))`. -/
def strictAliasSearch (al s : List Char) : Bool :=
  (List.range (s.length + 1)).any (fun i =>
    al.isPrefixOf (s.drop i) && strictBeforeOk s i && strictAfterOk (s.drop (i + al.length)))

/-- The separator class of the loose alias pattern:
`[\s\-_:,\.\;\!\?\)\]}}]`. -/
def looseSep : List Char := ['-', '_', ':', ',', '.', ';', '!', '?', ')', ']', '}']

/-- The loose pattern's lookahead `(?=$|[\s\-_:,\.\;\!\?\)\]}}])`. -/
def looseAfterOk : List Char → Bool
  | [] => true
  | c :: _ => c.isWhitespace || looseSep.contains c

/-- The loose pattern's prefix condition `(?:(?<=\s)|^)`. -/
def looseBeforeOk (s : List Char) (i : Nat) : Bool :=
  i == 0 ||
    (match (s.drop (i - 1)).head? with
     | some c => c.isWhitespace
     | none => false)

/-- `re.search` of the loose alias pattern
`(?:(?<=\s)|^){esc}(?=$|[\s\-_:,\.\;\!\?\)\]}}])`. -/
def looseAliasSearch (al s : List Char) : Bool :=
  (List.range (s.length + 1)).any (fun i =>
    al.isPrefixOf (s.drop i) && looseBeforeOk s i && looseAfterOk (s.drop (i + al.length)))

/-- Styles attached to allow decisions (`"reply"` / `"normal"`). -/
inductive Style | normal | reply
deriving DecidableEq, Repr

/-- `context_hint` dict attached to time-cooldown general allowances. -/
structure ContextHint where
  timeBoundMinutes : Int
  maxMessages : Int
deriving DecidableEq, Repr

/-- The `reason` strings returned by `ParticipationPolicy.should_reply`
(`chance-failed:{roll:.2f}` carries the roll). -/
inductive Reason
  | ignoreBot | botBlocked | botNotAllowed | antiSpam | mentionRequired
  | mention | mentionAlias | generalNotAllowedChannel | cooldown
  | chanceFailed (roll : ℚ) | general | generalOverride
deriving DecidableEq, Repr

/-- Decision dict of `should_reply`; absent keys are modelled by the defaults
(`ephemeral` absent is falsy, `style`/`context_hint` absent are `none`). -/
structure Decision where
  allow : Bool
  reason : Reason
  style : Option Style := none
  ephemeral : Bool := false
  contextHint : Option ContextHint := none
deriving DecidableEq, Repr

/-- `ParticipationPolicy` configuration state (fields set in `__init__`;
`aliases` holds the already-lowercased aliases, `name_matching_strict` the
normalized `name_matching` mode, `cooldown_logic_and` the normalized
`logic_type`). -/
structure Policy where
  mention_required : Bool
  respond_to_name : Bool
  aliases : List String
  name_matching_strict : Bool
  cooldown_min_messages : Int
  cooldown_min_seconds : Int
  cooldown_logic_and : Bool
  window_seconds : Int
  max_responses : Int
  random_response_chance : ℚ
  time_ctx_minutes : Int
  time_ctx_max_messages : Int
  allowed_general_channels : List String
  response_chance_override_channels : List String
  respond_to_bots : Bool
  blocked_bot_ids : List String
  allowed_bot_ids : List String

/-- `ParticipationPolicy.name_match`: false unless `respond_to_name` and the
content is non-empty; otherwise any alias pattern matching the lowercased
content. -/
def nameMatch (p : Policy) (content : String) : Bool :=
  if !p.respond_to_name || content == "" then false
  else
    let s := (lowerStr content).data
    p.aliases.any (fun a =>
      if p.name_matching_strict then strictAliasSearch a.data s
      else looseAliasSearch a.data s)

/-- Event dict fields consumed by the policy, memory and batcher
(`created_at` in epoch seconds). -/
structure Event where
  channel_id : String
  author_id : String
  content : String
  is_bot : Bool
  is_mentioned : Bool
  is_reply_to_bot : Bool
  created_at : Option Int
  message_id : Option String
deriving DecidableEq, Repr

/-- `ConversationMemory` state: per-channel dicts modelled as total functions
(defaultdict semantics); deques as lists with the head oldest. -/
structure Memory where
  store : String → List Event
  lastReply : String → Option Int
  repliesTimestamps : String → List Int
  convUntil : String → Option Int
  convBudget : String → Option Int
  respondedTo : String → List String

/-- A fresh `ConversationMemory()`. -/
def emptyMemory : Memory :=
  ⟨fun _ => [], fun _ => none, fun _ => [], fun _ => none, fun _ => none, fun _ => []⟩

/-- `ConversationMemory.record`: append the event to the channel buffer
(the `deque(maxlen=200)` cap is not exercised by the claims). -/
def Memory.record (m : Memory) (e : Event) : Memory :=
  { m with store := fun c => if c = e.channel_id then m.store e.channel_id ++ [e] else m.store c }

/-- `ConversationMemory.on_replied` at time `now`: set `last_reply`, append the
reply timestamp and prune the deque to the trailing 60-second window, and
remember the triggering message id. -/
def Memory.onReplied (m : Memory) (e : Event) (now : Int) : Memory :=
  let cid := e.channel_id
  { m with
    lastReply := fun c => if c = cid then some now else m.lastReply c
    repliesTimestamps := fun c =>
      if c = cid then (m.repliesTimestamps cid ++ [now]).dropWhile (fun t => t < now - 60)
      else m.repliesTimestamps c
    respondedTo := fun c =>
      if c = cid then
        match e.message_id with
        | some mid => if (m.respondedTo cid).contains mid then m.respondedTo cid
                      else m.respondedTo cid ++ [mid]
        | none => m.respondedTo cid
      else m.respondedTo c }

/-- `ConversationMemory.responses_in_window`: pop timestamps older than
`now - window_seconds` from the front, then count the remainder. -/
def responsesInWindow (m : Memory) (cid : String) (windowSeconds : Int) (now : Int) : Nat :=
  ((m.repliesTimestamps cid).dropWhile (fun t => t < now - windowSeconds)).length

/-- `ConversationMemory.messages_since_last_reply`: with no recorded reply,
count all non-bot messages; otherwise walk the buffer newest-first while
`created_at` is present and after the last reply, counting non-bot entries. -/
def messagesSinceLastReply (m : Memory) (cid : String) : Nat :=
  match m.lastReply cid with
  | none => ((m.store cid).filter (fun e => !e.is_bot)).length
  | some last =>
    (((m.store cid).reverse.takeWhile (fun e =>
        match e.created_at with
        | some t => last < t
        | none => false)).filter (fun e => !e.is_bot)).length

/-- `ConversationMemory.start_conversation_mode`. -/
def Memory.startConversationMode (m : Memory) (cid : String) (now windowSeconds maxMessages : Int) :
    Memory :=
  { m with
    convUntil := fun c => if c = cid then some (now + windowSeconds) else m.convUntil c
    convBudget := fun c => if c = cid then some maxMessages else m.convBudget c }

/-- `ConversationMemory.conversation_mode_active`: true while now is at or
before the stored expiry and the budget is positive; otherwise the channel's
expiry and budget entries are popped. -/
def conversationModeActive (m : Memory) (cid : String) (now : Int) : Bool × Memory :=
  match m.convUntil cid with
  | none => (false, m)
  | some until_ =>
    if now ≤ until_ ∧ 0 < (m.convBudget cid).getD 0 then (true, m)
    else
      (false,
        { m with
          convUntil := fun c => if c = cid then none else m.convUntil c
          convBudget := fun c => if c = cid then none else m.convBudget c })

/-- `ConversationMemory.consume_conversation_message`. -/
def consumeConversationMessage (m : Memory) (cid : String) (now : Int) : Bool × Memory :=
  let (active, m1) := conversationModeActive m cid now
  if active then
    (true,
      { m1 with
        convBudget := fun c =>
          if c = cid then some (max 0 ((m1.convBudget cid).getD 0 - 1)) else m1.convBudget c })
  else (false, m1)

/-- `ParticipationPolicy.should_reply` at time `now`; the `random.random()`
draw is passed in as `roll`. -/
def shouldReply (p : Policy) (mem : Memory) (e : Event) (now : Int) (roll : ℚ) : Decision :=
  if e.is_bot && !p.respond_to_bots then
    { allow := false, reason := .ignoreBot }
  else if e.is_bot && p.blocked_bot_ids.contains e.author_id then
    { allow := false, reason := .botBlocked }
  else if e.is_bot && !p.allowed_bot_ids.isEmpty && !p.allowed_bot_ids.contains e.author_id then
    { allow := false, reason := .botNotAllowed }
  else if p.max_responses ≤ (responsesInWindow mem e.channel_id p.window_seconds now : Int) then
    { allow := false, reason := .antiSpam, ephemeral := true }
  else
    let nameMatched := p.respond_to_name && nameMatch p (lowerStr e.content)
    let isDirect := e.is_mentioned || nameMatched || e.is_reply_to_bot
    if p.mention_required && !isDirect then
      { allow := false, reason := .mentionRequired }
    else
      let lastReply : Int := (mem.lastReply e.channel_id).getD 0
      let secondsSince : Int := now - lastReply
      let messagesSince : Nat := messagesSinceLastReply mem e.channel_id
      if isDirect then
        { allow := true,
          reason := if nameMatched && !e.is_mentioned then .mentionAlias else .mention,
          style := some .reply }
      else if !p.allowed_general_channels.contains e.channel_id then
        { allow := false, reason := .generalNotAllowedChannel }
      else
        let messagesOk : Bool := decide (p.cooldown_min_messages ≤ (messagesSince : Int))
        let secondsOk : Bool := decide (p.cooldown_min_seconds ≤ secondsSince)
        let cooldownOk : Bool :=
          if p.cooldown_logic_and then messagesOk && secondsOk else messagesOk || secondsOk
        let isOverride : Bool := p.response_chance_override_channels.contains e.channel_id
        if !cooldownOk && !isOverride then
          { allow := false, reason := .cooldown }
        else if !isOverride && p.random_response_chance ≤ roll then
          { allow := false, reason := .chanceFailed roll }
        else
          { allow := true,
            reason := if isOverride then .generalOverride else .general,
            style := some .normal,
            contextHint :=
              if p.cooldown_min_seconds ≤ secondsSince then
                some ⟨p.time_ctx_minutes, p.time_ctx_max_messages⟩
              else none }

/-- Whether a message id is tracked for dedup: `if msg_id` in Python requires
it to be present and non-empty. -/
def trackedId : Option String → Bool
  | some s => !(s == "")
  | none => false

/-- `ConversationBatcher` state: per-channel event buffer, seen id-set, and
seen id insertion order, plus the `max_buffer_per_channel` cap. -/
structure Batcher where
  maxBuffer : Nat
  buffers : String → List Event
  seenSets : String → List String
  seenOrder : String → List String

/-- A fresh `ConversationBatcher(max_buffer_per_channel)`. -/
def emptyBatcher (maxBuffer : Nat) : Batcher :=
  ⟨maxBuffer, fun _ => [], fun _ => [], fun _ => []⟩

/-- `ConversationBatcher._cleanup_seen`: pop seen-order entries whose id is no
longer in the seen set; when both order and buffer are empty the per-channel
dict entries are dropped (i.e. reset to their defaults). -/
def cleanupSeen (b : Batcher) (c : String) : Batcher :=
  let order1 := (b.seenOrder c).dropWhile (fun mid => !(b.seenSets c).contains mid)
  let b1 := { b with seenOrder := fun c' => if c' = c then order1 else b.seenOrder c' }
  if order1.isEmpty && (b1.buffers c).isEmpty then
    { b1 with
      seenOrder := fun c' => if c' = c then [] else b1.seenOrder c'
      seenSets := fun c' => if c' = c then [] else b1.seenSets c'
      buffers := fun c' => if c' = c then [] else b1.buffers c' }
  else b1

/-- `ConversationBatcher.add`: dedup on tracked message ids, append the event,
record the id, evict the oldest event when the buffer exceeds the cap
(removing its id from the seen set), then clean up. -/
def Batcher.add (b : Batcher) (c : String) (e : Event) : Bool × Batcher :=
  let tracked := trackedId e.message_id
  let mid := e.message_id.getD ""
  if tracked && (b.seenSets c).contains mid then (false, b)
  else
    let buf1 := b.buffers c ++ [e]
    let seen1 := if tracked then b.seenSets c ++ [mid] else b.seenSets c
    let order1 := if tracked then b.seenOrder c ++ [mid] else b.seenOrder c
    let buf2 := if b.maxBuffer < buf1.length then buf1.tail else buf1
    let seen2 :=
      if b.maxBuffer < buf1.length then
        match buf1.head? with
        | some old =>
          if trackedId old.message_id && seen1.contains (old.message_id.getD "") then
            seen1.erase (old.message_id.getD "")
          else seen1
        | none => seen1
      else seen1
    let b2 := { b with
      buffers := fun c' => if c' = c then buf2 else b.buffers c'
      seenSets := fun c' => if c' = c then seen2 else b.seenSets c'
      seenOrder := fun c' => if c' = c then order1 else b.seenOrder c' }
    (true, cleanupSeen b2 c)

/-- `ConversationBatcher.drain`: pop up to `max(1, limit)` oldest events,
removing their tracked ids from the seen set, then clean up. -/
def Batcher.drain (b : Batcher) (c : String) (limit : Nat) : List Event × Batcher :=
  let buf := b.buffers c
  if buf.isEmpty then ([], b)
  else
    let n := max 1 limit
    let out := buf.take n
    let rest := buf.drop n
    let seen2 := out.foldl (fun s ev =>
        if trackedId ev.message_id && s.contains (ev.message_id.getD "") then
          s.erase (ev.message_id.getD "")
        else s)
      (b.seenSets c)
    let b2 := { b with
      buffers := fun c' => if c' = c then rest else b.buffers c'
      seenSets := fun c' => if c' = c then seen2 else b.seenSets c' }
    (out, cleanupSeen b2 c)

/-- `LoreEntry` from `src/lore_service.py` (`comment` is `None` or non-empty;
`sourceMd` is true for `'md'` entries, false for `'json'`). -/
structure LoreEntry where
  uid : String
  keys : Option (List String)
  content : String
  comment : Option String
  sourceMd : Bool
  constant : Bool
deriving DecidableEq, Repr

/-- Python whitespace strip (`str.strip()`). -/
def pyStrip (s : String) : String :=
  let l := (s.data.dropWhile Char.isWhitespace).reverse.dropWhile Char.isWhitespace
  ⟨l.reverse⟩

/-- The CJK character test of `LoreService._key_matches`:
`[぀-ヿ㐀-鿿ｦ-ﾝ]`. -/
def isCJKChar (c : Char) : Bool :=
  (0x3040 ≤ c.toNat && c.toNat ≤ 0x30ff) ||
  (0x3400 ≤ c.toNat && c.toNat ≤ 0x9fff) ||
  (0xff66 ≤ c.toNat && c.toNat ≤ 0xff9d)

/-- Substring containment (Python `in` on strings) over character lists. -/
def containsSub (s sub : List Char) : Bool :=
  (List.range (s.length + 1)).any (fun i => sub.isPrefixOf (s.drop i))

/-- A regex `\b` boundary between an optional left character and an optional
right character: exactly one side is a word character. -/
def wordBoundary (left right : Option Char) : Bool :=
  (match left with | some c => isWordChar c | none => false) !=
    (match right with | some c => isWordChar c | none => false)

/-- `re.search(rf"\b{escaped}\b", text)` for a non-empty literal key over
character lists. -/
def wordBoundarySearch (s k : List Char) : Bool :=
  (List.range (s.length + 1)).any (fun i =>
    k.isPrefixOf (s.drop i) &&
    wordBoundary ((s.take i).getLast?) k.head? &&
    wordBoundary k.getLast? ((s.drop (i + k.length)).head?))

/-- `LoreService._key_matches`: strip the key, reject empty, substring match
for CJK keys, whole-token (word-boundary) match for Latin keys. -/
def keyMatches (textLower : String) (key : String) : Bool :=
  let k := pyStrip key
  if k == "" then false
  else
    let kl := lowerStr k
    if kl.data.any isCJKChar then containsSub textLower.data kl.data
    else wordBoundarySearch textLower.data kl.data

/-- Rendering of one lore entry in `build_lore_block`:
`f"## {comment}\n"` header when a comment exists, then content and a blank
line. -/
def renderBlock (e : LoreEntry) : String :=
  (match e.comment with
   | some cm => "## " ++ cm ++ "\n"
   | none => "") ++ e.content ++ "\n\n"

/-- The partition-and-order step of `build_lore_block`: constant entries
first, then key-matched entries, with Markdown/JSON interleaving per
`md_priority`. -/
def orderedEntries (entries : List LoreEntry) (textLower : String) (mdHigh : Bool) :
    List LoreEntry :=
  let alwaysMd := entries.filter (fun e => e.constant && e.sourceMd)
  let alwaysJson := entries.filter (fun e => e.constant && !e.sourceMd)
  let matchedOf (md : Bool) := entries.filter (fun e =>
    !e.constant && e.sourceMd == md &&
      (e.keys.getD []).any (fun k => keyMatches textLower k))
  if mdHigh then alwaysMd ++ alwaysJson ++ matchedOf true ++ matchedOf false
  else alwaysJson ++ alwaysMd ++ matchedOf false ++ matchedOf true

/-- The accumulation loop of `build_lore_block`: append whole blocks while
they fit; when the first block alone exceeds the budget, append its truncation
instead; stop at the first block that does not fit. -/
def lorePieces (maxTokens : Nat) : Nat → List LoreEntry → List String
  | _, [] => []
  | used, e :: rest =>
    let block := renderBlock e
    let bt := estimateTokensText block
    if maxTokens < used + bt then
      if used = 0 then [truncateTextTokens block (maxTokens : Int)] else []
    else block :: lorePieces maxTokens (used + bt) rest

/-- `LoreService.build_lore_block`: `None` without entries or pieces, else the
`[Lore]` header followed by the accumulated pieces. -/
def buildLoreBlock (entries : List LoreEntry) (corpus : String) (mdHigh : Bool)
    (maxTokens : Nat) : Option String :=
  if entries.isEmpty then none
  else
    let ordered := orderedEntries entries (lowerStr corpus) mdHigh
    if ordered.isEmpty then none
    else
      let pieces := lorePieces maxTokens 0 ordered
      if pieces.isEmpty then none
      else some ("[Lore]\n" ++ String.join pieces)

/-- Context flags consumed by `ContextualMultiBackendClient._select`
(a missing dict key is falsy, so flags are plain booleans). -/
structure ContextFlags where
  hasImages : Bool
  web : Bool
  nsfw : Bool
deriving DecidableEq, Repr

/-- Provider pools held by `ContextualMultiBackendClient`. -/
structure Pools (α : Type) where
  normal : List α
  nsfw : List α
  vision : List α
  web : List α
deriving DecidableEq, Repr

/-- `ContextualMultiBackendClient._select`: `if cf.get("has_images") and
self.vision: ...` etc., defaulting to the normal pool (list truthiness means a
flagged-but-empty pool falls through to the next check). -/
def selectPool {α : Type} (p : Pools α) (cf : ContextFlags) : List α :=
  if cf.hasImages && !p.vision.isEmpty then p.vision
  else if cf.web && !p.web.isEmpty then p.web
  else if cf.nsfw && !p.nsfw.isEmpty then p.nsfw
  else p.normal

/-- The pool selection exactly as the spec sentence words it: pick the pool
for the first set flag in precedence, then fall back to the normal pool iff
that selected pool is empty. -/
def selectPoolSpecClaim {α : Type} (p : Pools α) (cf : ContextFlags) : List α :=
  let sel :=
    if cf.hasImages then p.vision
    else if cf.web then p.web
    else if cf.nsfw then p.nsfw
    else p.normal
  if sel.isEmpty then p.normal else sel

/-- The amended wording: among the pools of the set flags in precedence order,
take the first non-empty one; otherwise the normal pool. -/
def selectPoolFallthrough {α : Type} (p : Pools α) (cf : ContextFlags) : List α :=
  let flagged :=
    (if cf.hasImages then [p.vision] else []) ++
    (if cf.web then [p.web] else []) ++
    (if cf.nsfw then [p.nsfw] else [])
  (flagged.filter (fun l => !l.isEmpty)).headD p.normal

/-! ## Theorems -/

/-- Helper: the length of a truncated-with-ellipsis string. -/
theorem length_take_ellipsis (l : List Char) (n : Nat) :
    (⟨l.take n ++ "...".data⟩ : String).length = min n l.length + 3 := by
  have h3 : ("...".data).length = 3 := rfl
  show (l.take n ++ "...".data).length = min n l.length + 3
  rw [List.length_append, List.length_take, h3]

/-- Helper: a positive budget bounds the token estimate of the truncation. -/
theorem estimate_truncate_le (text : String) (m : Int) (hm : 1 ≤ m) :
    (estimateTokensText (truncateTextTokens text m) : Int) ≤ m := by
  unfold truncateTextTokens
  rw [if_neg (by omega)]
  by_cases hle : text.length ≤ (4 * m).toNat
  · rw [if_pos hle]
    unfold estimateTokensText
    by_cases h0 : text.length = 0
    · rw [if_pos h0]; omega
    · rw [if_neg h0]
      have h1 : max 1 (text.length / 4) ≤ m.toNat := by
        apply max_le <;> omega
      omega
  · rw [if_neg hle]
    unfold estimateTokensText
    rw [length_take_ellipsis]
    have hlen : text.length = text.data.length := rfl
    have hmin : min ((4 * m).toNat - 3) text.data.length = (4 * m).toNat - 3 := by omega
    rw [hmin]
    have hne : ¬((4 * m).toNat - 3 + 3 = 0) := by omega
    rw [if_neg hne]
    have h1 : max 1 (((4 * m).toNat - 3 + 3) / 4) ≤ m.toNat := by
      apply max_le <;> omega
    omega

/-- C10: with the default `chars_per_token = 4.0`, `truncate_text_tokens`
returns the empty string for a non-positive budget, never exceeds a positive
budget as measured by `estimate_tokens_text`, and returns text of at most
`4 * max_tokens` characters unchanged. -/
theorem truncate_text_tokens_contract (text : String) (m : Int) :
    (m ≤ 0 → truncateTextTokens text m = "") ∧
    (1 ≤ m → (estimateTokensText (truncateTextTokens text m) : Int) ≤ m) ∧
    (1 ≤ m → (text.length : Int) ≤ m * 4 → truncateTextTokens text m = text) := by
  refine ⟨?_, fun hm => estimate_truncate_le text m hm, ?_⟩
  · intro h
    unfold truncateTextTokens
    rw [if_pos h]
  · intro hm hlen
    unfold truncateTextTokens
    rw [if_neg (by omega), if_pos (by omega)]

/-- Witness for C10 at concrete inputs. -/
theorem truncate_text_tokens_contract_w :
    truncateTextTokens "abcdefgh" (-1) = "" ∧
    (estimateTokensText (truncateTextTokens "abcdefghijklmnop" 2) : Int) ≤ 2 ∧
    truncateTextTokens "abcd" 2 = "abcd" :=
  ⟨(truncate_text_tokens_contract "abcdefgh" (-1)).1 (by decide),
   (truncate_text_tokens_contract "abcdefghijklmnop" 2).2.1 (by decide),
   (truncate_text_tokens_contract "abcd" 2).2.2 (by decide) (by decide)⟩

/-- Helper: without a protected entry, trimming only removes a prefix of the
history (oldest entries first). -/
theorem trimHistory_none_suffix (system : List Msg) (u : Msg) (b : Nat) (l : List Msg) :
    trimHistory system u b none l <:+ l := by
  induction l with
  | nil => simp [trimHistory]
  | cons h t ih =>
    rw [trimHistory.eq_def]
    dsimp only
    by_cases hfit : estimateTokensMessages (system ++ (h :: t) ++ [u]) ≤ b
    · rw [if_pos hfit]
    · rw [if_neg hfit]
      simp only [protectGuard, Bool.false_eq_true, if_false]
      exact ih.trans (List.suffix_cons h t)

/-- Helper: without a protected entry, the trimming loop stops only when the
assembly fits the budget or the history is exhausted. -/
theorem trimHistory_none_fits_or_nil (system : List Msg) (u : Msg) (b : Nat) (l : List Msg) :
    estimateTokensMessages (system ++ trimHistory system u b none l ++ [u]) ≤ b ∨
      trimHistory system u b none l = [] := by
  induction l with
  | nil => right; simp [trimHistory]
  | cons h t ih =>
    rw [trimHistory.eq_def]
    dsimp only
    by_cases hfit : estimateTokensMessages (system ++ (h :: t) ++ [u]) ≤ b
    · rw [if_pos hfit]; left; exact hfit
    · rw [if_neg hfit]
      simp only [protectGuard, Bool.false_eq_true, if_false]
      exact ih

/-- Helper: without a protected entry, the kept history fits the budget or is
empty. -/
theorem abHist_none_fits_or_nil (system history : List Msg) (userMsg : Msg) (budget : Nat) :
    estimateTokensMessages
        (system ++ abHist system history userMsg budget none ++ [userMsg]) ≤ budget ∨
      abHist system history userMsg budget none = [] := by
  unfold abHist
  split
  next hg =>
    rcases hg with hfit | hemp
    · left; exact hfit
    · right; exact List.isEmpty_iff.mp hemp
  next => exact trimHistory_none_fits_or_nil system userMsg budget history

/-- C1: on an over-budget call without a protected entry, `_assemble_and_budget`
returns `system_blocks ++ trimmed_history ++ [user]` with the system blocks
unmodified, the trimmed history a suffix of the input history (entries removed
oldest-first) such that the total fits the budget or the history is empty,
and the user content is altered only when even an empty history leaves the
total over budget. -/
theorem assemble_and_budget_trims_history_first
    (system history : List Msg) (userMsg : Msg) (budget tmin : Nat)
    (hover : budget < estimateTokensMessages (system ++ history ++ [userMsg])) :
    ∃ hist1 user1,
      (assembleAndBudget system history userMsg budget none tmin).messages
          = system ++ hist1 ++ [user1] ∧
      hist1 <:+ history ∧
      (estimateTokensMessages (system ++ hist1 ++ [userMsg]) ≤ budget ∨ hist1 = []) ∧
      user1.role = userMsg.role ∧
      (user1.content ≠ userMsg.content →
        hist1 = [] ∧ budget < estimateTokensMessages (system ++ [userMsg])) := by
  refine ⟨abHist system history userMsg budget none,
    abUser system history userMsg budget none tmin, rfl, ?_, abHist_none_fits_or_nil .., ?_, ?_⟩
  · unfold abHist
    split
    · exact List.suffix_refl history
    · exact trimHistory_none_suffix system userMsg budget history
  · simp only [abUser]
    split
    · rfl
    · rfl
  · intro hne
    have hfit : ¬ estimateTokensMessages
        (system ++ abHist system history userMsg budget none ++ [userMsg]) ≤ budget := by
      intro hle
      apply hne
      simp only [abUser]
      rw [if_pos hle]
    have hnil : abHist system history userMsg budget none = [] :=
      (abHist_none_fits_or_nil system history userMsg budget).resolve_left hfit
    refine ⟨hnil, ?_⟩
    have h2 := hfit
    rw [hnil] at h2
    simpa using not_le.mp h2

/-- Witness for C1 at a concrete over-budget call. -/
theorem assemble_and_budget_trims_history_first_w :
    ∃ hist1 user1,
      (assembleAndBudget [⟨"system", "xxxxxxxx"⟩] [⟨"user", "aaaa"⟩, ⟨"user", "bbbb"⟩]
          ⟨"user", "cccc"⟩ 1 none 8).messages
            = [⟨"system", "xxxxxxxx"⟩] ++ hist1 ++ [user1] ∧
      hist1 <:+ [⟨"user", "aaaa"⟩, ⟨"user", "bbbb"⟩] ∧
      (estimateTokensMessages ([⟨"system", "xxxxxxxx"⟩] ++ hist1 ++ [⟨"user", "cccc"⟩]) ≤ 1 ∨
        hist1 = []) ∧
      user1.role = Msg.role ⟨"user", "cccc"⟩ ∧
      (user1.content ≠ Msg.content ⟨"user", "cccc"⟩ →
        hist1 = [] ∧ 1 < estimateTokensMessages ([⟨"system", "xxxxxxxx"⟩] ++ [⟨"user", "cccc"⟩])) :=
  assemble_and_budget_trims_history_first [⟨"system", "xxxxxxxx"⟩]
    [⟨"user", "aaaa"⟩, ⟨"user", "bbbb"⟩] ⟨"user", "cccc"⟩ 1 8 (by decide)

/-- Helper: the trimming loop never removes the protected assistant entry. -/
theorem trimHistory_protect_mem (system : List Msg) (u : Msg) (b : Nat) (p : String)
    (hp : p ≠ "") :
    ∀ n (l : List Msg), l.length ≤ n → (⟨"assistant", p⟩ : Msg) ∈ l →
      (⟨"assistant", p⟩ : Msg) ∈ trimHistory system u b (some p) l := by
  intro n
  induction n with
  | zero =>
    intro l hl hm
    rcases l with _ | ⟨h, t⟩
    · cases hm
    · simp at hl
  | succ n ih =>
    intro l hl hm
    rcases l with _ | ⟨h, t⟩
    · cases hm
    · rw [trimHistory.eq_def]
      dsimp only
      by_cases hfit : estimateTokensMessages (system ++ (h :: t) ++ [u]) ≤ b
      · rw [if_pos hfit]; exact hm
      · rw [if_neg hfit]
        by_cases hg : protectGuard (some p) h = true
        · rw [if_pos hg]
          have hP : h = ⟨"assistant", p⟩ := by
            simp only [protectGuard, Bool.and_eq_true, Bool.not_eq_eq_eq_not, Bool.not_true,
              beq_iff_eq, beq_eq_false_iff_ne] at hg
            rcases h with ⟨hr, hc⟩
            simp only [Msg.mk.injEq]
            exact ⟨hg.1.2, hg.2⟩
          rcases t with _ | ⟨t0, ts⟩
          · simp [hP]
          · apply ih (h :: ts) (by simp at hl ⊢; omega)
            simp [hP]
        · rw [if_neg hg]
          apply ih t (by simp at hl; omega)
          rcases List.mem_cons.mp hm with he | ht
          · exfalso
            apply hg
            rw [← he]
            simp [protectGuard, hp]
          · exact ht

/-- C2: when `protect_last_assistant` is a non-empty string and the history
holds exactly one assistant entry with that content, that entry survives
`_assemble_and_budget` for every budget. -/
theorem assemble_and_budget_protects_parent
    (system history : List Msg) (userMsg : Msg) (budget tmin : Nat) (p : String)
    (hp : p ≠ "")
    (hmem : (⟨"assistant", p⟩ : Msg) ∈ history)
    (huniq : history.count (⟨"assistant", p⟩ : Msg) = 1) :
    (⟨"assistant", p⟩ : Msg) ∈
      (assembleAndBudget system history userMsg budget (some p) tmin).messages := by
  have h1 : (⟨"assistant", p⟩ : Msg) ∈ abHist system history userMsg budget (some p) := by
    unfold abHist
    split
    · exact hmem
    · exact trimHistory_protect_mem system userMsg budget p hp history.length history le_rfl hmem
  show (⟨"assistant", p⟩ : Msg) ∈ system ++ abHist system history userMsg budget (some p) ++ _
  simp only [List.mem_append]
  left; right; exact h1

/-- Witness for C2 at a concrete far-over-budget call. -/
theorem assemble_and_budget_protects_parent_w :
    (⟨"assistant", "pppp"⟩ : Msg) ∈
      (assembleAndBudget [] [⟨"assistant", "pppp"⟩, ⟨"user", "aaaaaaaaaaaaaaaa"⟩]
        ⟨"user", "bbbbbbbbbbbbbbbb"⟩ 1 (some "pppp") 8).messages :=
  assemble_and_budget_protects_parent [] [⟨"assistant", "pppp"⟩, ⟨"user", "aaaaaaaaaaaaaaaa"⟩]
    ⟨"user", "bbbbbbbbbbbbbbbb"⟩ 1 8 "pppp" (by decide) (by decide) (by decide)

/-- Concrete policy for the anti-spam scenario (`max_responses=2,
window_seconds=120`). -/
def antiSpamPolicy : Policy :=
  { mention_required := false, respond_to_name := false, aliases := [],
    name_matching_strict := true, cooldown_min_messages := 3, cooldown_min_seconds := 30,
    cooldown_logic_and := false, window_seconds := 120, max_responses := 2,
    random_response_chance := 1/5, time_ctx_minutes := 10, time_ctx_max_messages := 50,
    allowed_general_channels := ["chan"], response_chance_override_channels := [],
    respond_to_bots := false, blocked_bot_ids := [], allowed_bot_ids := [] }

/-- Event used to record replies in the anti-spam scenario. -/
def antiSpamReplyEvent : Event :=
  { channel_id := "chan", author_id := "u1", content := "", is_bot := false,
    is_mentioned := true, is_reply_to_bot := false, created_at := none, message_id := none }

/-- Counterexample to C3 as stated: two replies recorded at t=0 and t=70 both
lie inside the trailing 120-second window at t=80, yet the next (mention)
event in the channel is allowed with reason `mention`, not denied as
`anti-spam`, because `on_replied` pruned the t=0 timestamp away when the
second reply was recorded 70 seconds later (60-second record-time prune). -/
theorem anti_spam_two_replies_spacing_cex :
    ((80 : Int) - 0 ≤ 120 ∧ (80 : Int) - 70 ≤ 120) ∧
    responsesInWindow ((emptyMemory.onReplied antiSpamReplyEvent 0).onReplied
        antiSpamReplyEvent 70) "chan" 120 80 = 1 ∧
    shouldReply antiSpamPolicy
        ((emptyMemory.onReplied antiSpamReplyEvent 0).onReplied antiSpamReplyEvent 70)
        antiSpamReplyEvent 80 0
      = { allow := true, reason := .mention, style := some .reply } := by
  refine ⟨by decide, by decide, ?_⟩
  decide

/-- C3 amended: with `max_responses=2, window_seconds=120`, after two replies
recorded at times `t1 ≤ t2` that are at most 60 seconds apart (so the second
record's 60-second prune keeps the first) and with `t1` inside the trailing
120-second window at decision time, the next non-bot event in the channel is
denied with reason `anti-spam` and `ephemeral=true`. -/
theorem anti_spam_two_replies_denied
    (p : Policy) (e e1 e2 : Event) (m0 : Memory) (t1 t2 now : Int) (roll : ℚ)
    (hw : p.window_seconds = 120) (hm : p.max_responses = 2)
    (hbot : e.is_bot = false)
    (hc1 : e1.channel_id = e.channel_id) (hc2 : e2.channel_id = e.channel_id)
    (hq : m0.repliesTimestamps e.channel_id = [])
    (h12 : t1 ≤ t2) (hgap : t2 - t1 ≤ 60) (hwin : now - t1 ≤ 120) :
    shouldReply p ((m0.onReplied e1 t1).onReplied e2 t2) e now roll
      = { allow := false, reason := .antiSpam, ephemeral := true } := by
  have hinner : (m0.onReplied e1 t1).repliesTimestamps e.channel_id = [t1] := by
    have hf : ¬ (t1 < t1 - 60) := by omega
    simp [Memory.onReplied, hc1, hq, hf]
  have houter : ∀ m1 : Memory, m1.repliesTimestamps e.channel_id = [t1] →
      (m1.onReplied e2 t2).repliesTimestamps e.channel_id = [t1, t2] := by
    intro m1 h1
    have hf1 : ¬ (t1 < t2 - 60) := by omega
    simp [Memory.onReplied, hc2, h1, hf1]
  have hq1 := houter _ hinner
  have hcount : responsesInWindow ((m0.onReplied e1 t1).onReplied e2 t2)
      e.channel_id p.window_seconds now = 2 := by
    have hf : ¬ (t1 < now - 120) := by omega
    simp [responsesInWindow, hq1, hw, hf]
  unfold shouldReply
  rw [hbot]
  simp only [Bool.false_and, Bool.false_eq_true, if_false]
  rw [hcount, hm]
  rw [if_pos (by exact_mod_cast le_refl (2 : Int))]

/-- Witness for the amended C3 at concrete reply times 0 and 50 with the
decision at time 80. -/
theorem anti_spam_two_replies_denied_w :
    shouldReply antiSpamPolicy
        ((emptyMemory.onReplied antiSpamReplyEvent 0).onReplied antiSpamReplyEvent 50)
        antiSpamReplyEvent 80 0
      = { allow := false, reason := .antiSpam, ephemeral := true } :=
  anti_spam_two_replies_denied antiSpamPolicy antiSpamReplyEvent antiSpamReplyEvent
    antiSpamReplyEvent emptyMemory 0 50 80 0 rfl rfl rfl rfl rfl rfl
    (by decide) (by decide) (by decide)

/-- Strict-mode policy with the single alias `"ai"`. -/
def aiStrictPolicy : Policy :=
  { antiSpamPolicy with
    respond_to_name := true
    aliases := ["ai"]
    name_matching_strict := true }

/-- Loose-mode policy with the single alias `"ai"`. -/
def aiLoosePolicy : Policy :=
  { aiStrictPolicy with name_matching_strict := false }

/-- C4: for alias `"ai"`, strict `name_match` rejects the substring in
`"main event"`, accepts `"hey ai, help"` (comma separator), and rejects
`"ai-chan"` (hyphen is not a strict separator), while loose mode accepts
`"ai-chan"`. -/
theorem name_match_ai_modes :
    nameMatch aiStrictPolicy "main event" = false ∧
    nameMatch aiStrictPolicy "hey ai, help" = true ∧
    nameMatch aiLoosePolicy "ai-chan" = true ∧
    nameMatch aiStrictPolicy "ai-chan" = false := by
  decide


/-- C5: with `min_messages_between_replies=3` and
`min_seconds_between_replies=30`, a non-direct, non-bot event in an allowed,
non-override channel (anti-spam not tripped) with 2 messages since the last
reply and 10 elapsed seconds is denied with reason `cooldown` under either
combination logic; under OR logic, meeting either threshold passes the
cooldown gate and the decision is settled by the chance roll. -/
theorem cooldown_gate_thresholds
    (p : Policy) (e : Event) (mem : Memory) (now : Int) (roll : ℚ)
    (h3 : p.cooldown_min_messages = 3) (h30 : p.cooldown_min_seconds = 30)
    (hbot : e.is_bot = false)
    (hspam : ((responsesInWindow mem e.channel_id p.window_seconds now : Int)
      < p.max_responses))
    (hmr : p.mention_required = false)
    (hnd : (e.is_mentioned || (p.respond_to_name && nameMatch p (lowerStr e.content))
      || e.is_reply_to_bot) = false)
    (hallow : p.allowed_general_channels.contains e.channel_id = true)
    (hnov : p.response_chance_override_channels.contains e.channel_id = false) :
    (messagesSinceLastReply mem e.channel_id = 2 →
      now - (mem.lastReply e.channel_id).getD 0 = 10 →
      shouldReply p mem e now roll = { allow := false, reason := .cooldown }) ∧
    (p.cooldown_logic_and = false →
      (3 ≤ (messagesSinceLastReply mem e.channel_id : Int) ∨
        30 ≤ now - (mem.lastReply e.channel_id).getD 0) →
      (p.random_response_chance ≤ roll →
        shouldReply p mem e now roll = { allow := false, reason := .chanceFailed roll }) ∧
      (roll < p.random_response_chance →
        (shouldReply p mem e now roll).allow = true ∧
        (shouldReply p mem e now roll).reason = .general)) := by
  constructor
  · intro hmsg hsec
    unfold shouldReply
    simp only [hbot, hmr, hnd, hallow, hnov, Bool.false_and, Bool.false_eq_true, if_false,
      Bool.not_true, Bool.not_false, Bool.and_false, Bool.and_true, Bool.true_and,
      Bool.false_or, Bool.or_false, if_true]
    rw [if_neg (not_le.mpr hspam)]
    rw [hmsg, hsec, h3, h30]
    cases hl : p.cooldown_logic_and <;> simp
  · intro hor hth
    unfold shouldReply
    simp only [hbot, hmr, hnd, hallow, hnov, Bool.false_and, Bool.false_eq_true, if_false,
      Bool.not_true, Bool.not_false, Bool.and_false, Bool.and_true, Bool.true_and,
      Bool.false_or, Bool.or_false, if_true, hor, h3, h30]
    rw [if_neg (not_le.mpr hspam)]
    have hcd : (decide ((3:Int) ≤ (messagesSinceLastReply mem e.channel_id : Int))
        || decide ((30:Int) ≤ now - (mem.lastReply e.channel_id).getD 0)) = true := by
      rcases hth with h | h
      · simp [h]
      · simp [h]
    rw [hcd]
    simp only [Bool.not_true, Bool.false_and, Bool.false_eq_true, if_false, Bool.true_and]
    constructor
    · intro hch
      rw [if_pos (by simpa using hch)]
    · intro hch
      rw [if_neg (by simpa using not_le.mpr hch)]
      exact ⟨rfl, rfl⟩

/-- Events making up the cooldown-scenario channel history. -/
def cooldownUserEvent1 : Event :=
  { channel_id := "chan", author_id := "u2", content := "hello", is_bot := false,
    is_mentioned := false, is_reply_to_bot := false, created_at := some 5,
    message_id := some "m1" }

/-- Second history event of the cooldown scenario. -/
def cooldownUserEvent2 : Event :=
  { cooldownUserEvent1 with created_at := some 6, message_id := some "m2" }

/-- Memory with a last reply at t=0 and two later non-bot messages. -/
def cooldownMemory : Memory :=
  { emptyMemory with
    lastReply := fun c => if c = "chan" then some 0 else none
    store := fun c => if c = "chan" then [cooldownUserEvent1, cooldownUserEvent2] else [] }

/-- Non-direct general-chat event used in the cooldown scenario. -/
def cooldownEvent : Event :=
  { channel_id := "chan", author_id := "u3", content := "just chatting", is_bot := false,
    is_mentioned := false, is_reply_to_bot := false, created_at := some 10,
    message_id := some "m3" }

/-- Witness for C5: both cooldown thresholds unmet at t=10 denies with
`cooldown`; at t=40 the seconds threshold alone passes the OR gate and a
failing roll yields `chance-failed`. -/
theorem cooldown_gate_thresholds_w :
    shouldReply antiSpamPolicy cooldownMemory cooldownEvent 10 (1/2)
        = { allow := false, reason := .cooldown } ∧
    shouldReply antiSpamPolicy cooldownMemory cooldownEvent 40 (1/2)
        = { allow := false, reason := .chanceFailed (1/2) } :=
  ⟨(cooldown_gate_thresholds antiSpamPolicy cooldownEvent cooldownMemory 10 (1/2)
      rfl rfl rfl (by decide) rfl (by decide) (by decide) (by decide)).1
      (by decide) (by decide),
   ((cooldown_gate_thresholds antiSpamPolicy cooldownEvent cooldownMemory 40 (1/2)
      rfl rfl rfl (by decide) rfl (by decide) (by decide) (by decide)).2
      rfl (by right; decide)).1 (by norm_num [antiSpamPolicy])⟩

/-- Counterexample to C6 as stated: with `has_images` set, an empty vision
pool, and the `nsfw` flag set with a non-empty nsfw pool, `_select` returns
the nsfw pool, while the claim's fall-back-to-normal rule would return the
normal pool. -/
theorem select_pool_empty_fallback_cex :
    selectPool (⟨[1], [2], [], [4]⟩ : Pools Nat) ⟨true, false, true⟩ = [2] ∧
    selectPoolSpecClaim (⟨[1], [2], [], [4]⟩ : Pools Nat) ⟨true, false, true⟩ = [1] ∧
    ([2] : List Nat) ≠ [1] := by
  decide

/-- C6 amended: `_select` picks the first non-empty pool among the set flags
in precedence order `has_images → web → nsfw`, falling back to the normal
pool (an empty flagged pool falls through to the next flag, not directly to
normal). -/
theorem select_pool_fallthrough_eq {α : Type} (p : Pools α) (cf : ContextFlags) :
    selectPool p cf = selectPoolFallthrough p cf := by
  rcases cf with ⟨hi, w, n⟩
  rcases p with ⟨pn, pns, pv, pw⟩
  cases hi <;> cases w <;> cases n <;> cases pv <;> cases pw <;> cases pns <;> rfl

/-- C9: with conversation-mode state present, `conversation_mode_active` is
true iff now is at or before the stored expiry and the remaining budget is
positive; the first failing check removes both per-channel entries, and a
later `start_conversation_mode` re-creates them fresh. -/
theorem conversation_mode_auto_expiry (mem : Memory) (c : String) (u now : Int)
    (h : mem.convUntil c = some u) :
    ((conversationModeActive mem c now).1 = true ↔
      (now ≤ u ∧ 0 < (mem.convBudget c).getD 0)) ∧
    ((conversationModeActive mem c now).1 = false →
      (conversationModeActive mem c now).2.convUntil c = none ∧
      (conversationModeActive mem c now).2.convBudget c = none) ∧
    (∀ w m' now' : Int,
      (((conversationModeActive mem c now).2.startConversationMode c now' w m').convUntil c
          = some (now' + w)) ∧
      (((conversationModeActive mem c now).2.startConversationMode c now' w m').convBudget c
          = some m')) := by
  unfold conversationModeActive
  rw [h]
  dsimp only
  split
  next hcond =>
    refine ⟨by simpa using hcond, by simp, ?_⟩
    intro w m' now'
    simp [Memory.startConversationMode]
  next hcond =>
    refine ⟨by simpa using hcond, ?_, ?_⟩
    · intro _
      simp
    · intro w m' now'
      simp [Memory.startConversationMode]

/-- Witness for C9 with expiry 100, budget 5, checked at times 50 (active)
and 300 (expired and cleaned up). -/
theorem conversation_mode_auto_expiry_w :
    ((conversationModeActive (emptyMemory.startConversationMode "chan" 0 100 5) "chan" 50).1
        = true ↔ ((50 : Int) ≤ 100 ∧ 0 <
          ((emptyMemory.startConversationMode "chan" 0 100 5).convBudget "chan").getD 0)) ∧
    ((conversationModeActive (emptyMemory.startConversationMode "chan" 0 100 5) "chan" 300).1
        = false →
      (conversationModeActive (emptyMemory.startConversationMode "chan" 0 100 5)
          "chan" 300).2.convUntil "chan" = none ∧
      (conversationModeActive (emptyMemory.startConversationMode "chan" 0 100 5)
          "chan" 300).2.convBudget "chan" = none) :=
  ⟨(conversation_mode_auto_expiry (emptyMemory.startConversationMode "chan" 0 100 5)
      "chan" 100 50 (by decide)).1,
   (conversation_mode_auto_expiry (emptyMemory.startConversationMode "chan" 0 100 5)
      "chan" 100 300 (by decide)).2.1⟩

/-- Helper: ordering an empty entry list yields nothing. -/
theorem orderedEntries_nil (textLower : String) (mdHigh : Bool) :
    orderedEntries [] textLower mdHigh = [] := by
  cases mdHigh <;> rfl

/-- Helper: a `[Lore]`-headed block is never the empty string. -/
theorem string_append_ne_empty (t : String) : "[Lore]\n" ++ t ≠ "" := by
  intro h
  have := congrArg String.data h
  simp [String.data_append] at this

/-- C7: whenever the ordered constant/matched entry list is non-empty and the
budget is positive, `build_lore_block` returns a non-empty block; when the
first ordered entry's rendered block alone exceeds the budget, the block
consists of that entry truncated to the budget rather than omitted. -/
theorem build_lore_block_first_entry
    (entries : List LoreEntry) (corpus : String) (mdHigh : Bool) (maxTokens : Nat)
    (hord : orderedEntries entries (lowerStr corpus) mdHigh ≠ [])
    (hpos : 1 ≤ maxTokens) :
    ∃ s, buildLoreBlock entries corpus mdHigh maxTokens = some s ∧ s ≠ "" ∧
      (∀ e0 rest, orderedEntries entries (lowerStr corpus) mdHigh = e0 :: rest →
        maxTokens < estimateTokensText (renderBlock e0) →
        s = "[Lore]\n" ++ truncateTextTokens (renderBlock e0) (maxTokens : Int) ∧
        estimateTokensText (truncateTextTokens (renderBlock e0) (maxTokens : Int))
          ≤ maxTokens) := by
  have hne : ¬ entries.isEmpty := by
    intro hemp
    apply hord
    rw [List.isEmpty_iff.mp hemp]
    exact orderedEntries_nil _ _
  rcases hcons : orderedEntries entries (lowerStr corpus) mdHigh with _ | ⟨e0, rest⟩
  · exact absurd hcons hord
  · unfold buildLoreBlock
    rw [if_neg hne, hcons]
    dsimp only [List.isEmpty_cons, Bool.false_eq_true, if_false]
    rw [lorePieces.eq_def]
    dsimp only
    by_cases hfit : maxTokens < 0 + estimateTokensText (renderBlock e0)
    · rw [if_pos hfit, if_pos rfl]
      refine ⟨_, rfl, string_append_ne_empty _, ?_⟩
      intro e0' rest' hcons' hover
      injection hcons' with he hr
      subst he
      constructor
      · rfl
      · have hb := estimate_truncate_le (renderBlock e0) (maxTokens : Int)
          (by exact_mod_cast hpos)
        exact_mod_cast hb
    · rw [if_neg hfit]
      refine ⟨_, rfl, string_append_ne_empty _, ?_⟩
      intro e0' rest' hcons' hover
      injection hcons' with he hr
      subst he
      exfalso
      omega

/-- A constant lore entry whose rendered block exceeds small budgets. -/
def wideLoreEntry : LoreEntry :=
  ⟨"e1", none, "0123456789abcdef0123456789abcdef", some "T", false, true⟩

/-- Witness for C7: one constant entry, budget 4, block estimate 9 > 4. -/
theorem build_lore_block_first_entry_w :
    ∃ s, buildLoreBlock [wideLoreEntry] "hi" false 4 = some s ∧ s ≠ "" ∧
      (∀ e0 rest, orderedEntries [wideLoreEntry] (lowerStr "hi") false = e0 :: rest →
        4 < estimateTokensText (renderBlock e0) →
        s = "[Lore]\n" ++ truncateTextTokens (renderBlock e0) (4 : Int) ∧
        estimateTokensText (truncateTextTokens (renderBlock e0) (4 : Int)) ≤ 4) :=
  build_lore_block_first_entry [wideLoreEntry] "hi" false 4 (by decide) (by decide)

/-- Helper: a fresh tracked id is appended to buffer and seen set by `add`
(no eviction case). -/
theorem add_fresh (b0 : Batcher) (c : String) (e : Event) (mid : String)
    (hid : e.message_id = some mid) (hne : mid ≠ "")
    (hseen : (b0.seenSets c).contains mid = false)
    (hroom : (b0.buffers c).length + 1 ≤ b0.maxBuffer) :
    (b0.add c e).1 = true ∧
    (b0.add c e).2.buffers c = b0.buffers c ++ [e] ∧
    (b0.add c e).2.seenSets c = b0.seenSets c ++ [mid] := by
  have htr : trackedId e.message_id = true := by
    rw [hid]; simp [trackedId, hne]
  have hgetd : e.message_id.getD "" = mid := by rw [hid]; rfl
  have hev : ¬ (b0.maxBuffer < (b0.buffers c).length + 1) := by omega
  have hbe : (b0.buffers c ++ [e]).isEmpty = false := by
    cases b0.buffers c <;> rfl
  have hseen2 : mid ∉ b0.seenSets c := by simpa using hseen
  simp [Batcher.add, cleanupSeen, htr, hgetd, hseen, hseen2, hev, hbe]

/-- C8: adding the same non-empty `message_id` twice (no intervening drain or
eviction) returns true then false, leaves the state unchanged on the second
add, and the drained batch contains the event exactly once. -/
theorem batcher_dedup_and_single_drain
    (b0 : Batcher) (c : String) (e : Event) (mid : String) (limit : Nat)
    (hid : e.message_id = some mid) (hne : mid ≠ "")
    (hseen : (b0.seenSets c).contains mid = false)
    (hroom : (b0.buffers c).length + 1 ≤ b0.maxBuffer)
    (hbuf : ∀ e' ∈ b0.buffers c, e'.message_id ≠ some mid)
    (hlim : (b0.buffers c).length + 1 ≤ max 1 limit) :
    (b0.add c e).1 = true ∧
    ((b0.add c e).2.add c e).1 = false ∧
    ((b0.add c e).2.add c e).2 = (b0.add c e).2 ∧
    (((b0.add c e).2.drain c limit).1.count e = 1) := by
  obtain ⟨h1, hbufs, hsets⟩ := add_fresh b0 c e mid hid hne hseen hroom
  have htr : trackedId e.message_id = true := by
    rw [hid]; simp [trackedId, hne]
  have hgetd : e.message_id.getD "" = mid := by rw [hid]; rfl
  have hc2 : ((b0.add c e).2.seenSets c).contains mid = true := by
    rw [hsets]; simp
  have hadd2gen : ∀ b1 : Batcher, (b1.seenSets c).contains mid = true →
      b1.add c e = (false, b1) := by
    intro b1 hmem
    have hmem2 : mid ∈ b1.seenSets c := by simpa using hmem
    unfold Batcher.add
    simp [htr, hgetd, hmem2]
  have hadd2 : (b0.add c e).2.add c e = (false, (b0.add c e).2) :=
    hadd2gen _ hc2
  have hnonempty : ((b0.add c e).2.buffers c).isEmpty = false := by
    rw [hbufs]; cases b0.buffers c <;> rfl
  have htake : ((b0.add c e).2.buffers c).take (max 1 limit) = (b0.add c e).2.buffers c := by
    apply List.take_of_length_le
    rw [hbufs]
    simp only [List.length_append, List.length_cons, List.length_nil]
    omega
  have hdrain1 : ((b0.add c e).2.drain c limit).1 = (b0.add c e).2.buffers c := by
    unfold Batcher.drain
    simp only [hnonempty, Bool.false_eq_true, if_false]
    rw [htake]
  have hnotmem : e ∉ b0.buffers c := fun hm => hbuf e hm (by rw [hid])
  refine ⟨h1, by rw [hadd2], by rw [hadd2], ?_⟩
  rw [hdrain1, hbufs, List.count_append]
  rw [List.count_eq_zero.mpr hnotmem]
  simp

/-- Event used by the batcher witness. -/
def batchEvent : Event :=
  { channel_id := "chan", author_id := "u1", content := "hi", is_bot := false,
    is_mentioned := false, is_reply_to_bot := false, created_at := some 0,
    message_id := some "m1" }

/-- Witness for C8 on a fresh batcher. -/
theorem batcher_dedup_and_single_drain_w :
    ((emptyBatcher 200).add "chan" batchEvent).1 = true ∧
    (((emptyBatcher 200).add "chan" batchEvent).2.add "chan" batchEvent).1 = false ∧
    (((emptyBatcher 200).add "chan" batchEvent).2.add "chan" batchEvent).2
        = ((emptyBatcher 200).add "chan" batchEvent).2 ∧
    ((((emptyBatcher 200).add "chan" batchEvent).2.drain "chan" 10).1.count batchEvent = 1) :=
  batcher_dedup_and_single_drain (emptyBatcher 200) "chan" batchEvent "m1" 10
    rfl (by decide) rfl (by decide) (by intro e' h; cases h) (by decide)
